import Mathlib

/-!
# Purple Cubes — verification of the round simulation and scoring engine

Shallow embedding of `src/main.rs` (a Bevy 0.9 game).  Modelling conventions:

* Time is integer milliseconds (`ℤ`): the source uses `f32` seconds /
  `std::time::Duration`; every duration in the program is an exact decimal
  (2 s, 30 s, 1 s, draws in [1.0, 1.5) s), so a fixed-point embedding is
  exact and keeps every definition executable.  Positions and speeds use the
  same fixed-point integers; no verified property depends on float rounding.
* The Bevy ECS is embedded as explicit state: the cube entities are a list,
  `Assets<ColorMaterial>` is an association list from handle id to color,
  resources (`Score`, `SpawnTimer`, `RoundTimer`) are fields of `GameState`.
* `Commands` (entity spawn/despawn) are deferred in Bevy until the end of the
  update pass; the embedding mirrors this: systems collect pending spawns and
  despawn ids, which are applied after all `DuringRound` update systems ran,
  before the `on_exit`/`on_enter` hooks of a queued state transition.
* Systems of one `SystemSet` run in registration order here
  (`spawn_cube`, `movement`, `handle_key_input`, `update_scoreboard`,
  `despawn_cube`, `handle_missing_input`, `check_round_timer`); events sent
  by `despawn_cube` are read by `handle_missing_input` in the same tick.
* Random draws (`thread_rng().gen_bool/gen_range`) become explicit `Draws`
  parameters; a draw parameter stands for the library call with the stated
  distribution, and range guarantees of `gen_range(a..b)` appear as
  hypotheses `a ≤ draw ∧ draw < b`.
* `Score` is an `i16` in the source; it is embedded as unbounded `ℤ`
  (no verified claim concerns wrap-around at ±2¹⁵).
* The fallible `materials.get(...).unwrap()` calls are embedded as `Option`:
  a `none` result of a system marks the panic path.
* Rendering attributes (fonts, colors of text, z layers, meshes) are out of
  scope; text entities keep only their string value and a scoreboard marker.
-/

namespace PurpleCubes

/-- `bevy::time::TimerMode` (Bevy 0.9: `TimerMode::Once` / `Repeating`). -/
inductive TimerMode where
  | Once
  | Repeating
deriving DecidableEq, Repr

/-- Model of `bevy::time::Timer` (Bevy 0.9).  `duration`/`elapsed` are in
integer milliseconds.  `finished`/`justFinished` mirror the stored
`finished` flag and `times_finished_this_tick > 0`. -/
structure Timer where
  duration : ℤ
  elapsed : ℤ
  mode : TimerMode
  finished : Bool
  justFinished : Bool
deriving DecidableEq, Repr

/-- `Timer::new(duration, mode)`. -/
def Timer.new (d : ℤ) (m : TimerMode) : Timer :=
  { duration := d, elapsed := 0, mode := m, finished := false, justFinished := false }

/-- `Timer::tick(delta)` (Bevy 0.9 semantics): a finished one-shot timer is
frozen; otherwise elapsed advances, and on crossing the duration a repeating
timer wraps (`elapsed % duration`) while a one-shot timer clamps. -/
def Timer.tick (t : Timer) (delta : ℤ) : Timer :=
  if t.mode = TimerMode.Once ∧ t.finished then
    { t with justFinished := false }
  else
    let e := t.elapsed + delta
    if t.duration ≤ e then
      match t.mode with
      | TimerMode.Repeating =>
          { t with elapsed := e % t.duration, finished := true, justFinished := true }
      | TimerMode.Once =>
          { t with elapsed := t.duration, finished := true, justFinished := true }
    else
      { t with elapsed := e, finished := false, justFinished := false }

/-- `Timer::reset()`. -/
def Timer.reset (t : Timer) : Timer :=
  { t with elapsed := 0, finished := false, justFinished := false }

/-- `Timer::set_duration(d)`: changes the duration without touching elapsed. -/
def Timer.set_duration (t : Timer) (d : ℤ) : Timer :=
  { t with duration := d }

/-- Fixed-point `bevy::math::Vec3`. -/
structure Vec3 where
  x : ℤ
  y : ℤ
  z : ℤ
deriving DecidableEq, Repr

def Vec3.X : Vec3 := ⟨1, 0, 0⟩

def Vec3.NEG_X : Vec3 := ⟨-1, 0, 0⟩

def Vec3.Y : Vec3 := ⟨0, 1, 0⟩

def Vec3.NEG_Y : Vec3 := ⟨0, -1, 0⟩

def Vec3.ZERO : Vec3 := ⟨0, 0, 0⟩

def Vec3.splat (v : ℤ) : Vec3 := ⟨v, v, v⟩

def Vec3.add (a b : Vec3) : Vec3 := ⟨a.x + b.x, a.y + b.y, a.z + b.z⟩

def Vec3.smul (a : Vec3) (k : ℤ) : Vec3 := ⟨a.x * k, a.y * k, a.z * k⟩

/-- The two cube colors the source uses: `Color::PURPLE` and
`Color::MIDNIGHT_BLUE`. -/
inductive Color where
  | PURPLE
  | MIDNIGHT_BLUE
deriving DecidableEq, Repr

/-- One live cube entity: the bundle spawned in `spawn_cube`
(`Cube` marker, `Direction`, `Speed`, `DespawnTimer`, transform, material
handle).  The color is *not* stored on the entity — exactly as in the source
it lives only in the material addressed by `materialHandle`. -/
structure CubeEntity where
  id : ℕ
  direction : Vec3
  speed : ℤ
  translation : Vec3
  scale : Vec3
  despawnTimer : Timer
  materialHandle : ℕ
deriving DecidableEq, Repr

/-- A spawned `Text2dBundle`; `scoreboard` marks the `Scoreboard` component. -/
structure TextEntity where
  scoreboard : Bool
  value : String
deriving DecidableEq, Repr

/-- `enum AppState { Menu, DuringRound, AfterRound }`. -/
inductive AppState where
  | Menu
  | DuringRound
  | AfterRound
deriving DecidableEq, Repr

/-- The `just_pressed` flags of the four arrow keys for one tick. -/
structure Keys where
  up : Bool
  down : Bool
  left : Bool
  right : Bool
deriving DecidableEq, Repr

/-- The random draws one tick can consume.  `colorPurple` stands for
`gen_bool(0.8)` (true with probability 0.8), `dirIndex` for
`gen_range(0..4)` (uniform), `speedDraw` for `gen_range(size*2.0..size*3.0)`
(uniform), `intervalDraw` for `gen_range(1.0..1.5)` seconds (uniform, in ms
here), `msgIndex` for the `gen_range(0..2)` of `after_round_setup`. -/
structure Draws where
  colorPurple : Bool
  dirIndex : Fin 4
  speedDraw : ℤ
  intervalDraw : ℤ
  msgIndex : Fin 2
deriving DecidableEq, Repr

/-- The whole world state the core manipulates. -/
structure GameState where
  appState : AppState
  score : ℤ
  cubes : List CubeEntity
  materials : List (ℕ × Color)
  spawnTimer : Timer
  roundTimer : Timer
  nextId : ℕ
  texts : List TextEntity
deriving DecidableEq, Repr

/-- `materials.get(handle)`: lookup of a color material by handle id. -/
def findColor (mats : List (ℕ × Color)) (handle : ℕ) : Option Color :=
  (mats.find? (fun p => p.1 == handle)).map (fun p => p.2)

/-- The `match thread_rng().gen_range(0..4)` arm of `spawn_cube`. -/
def cardinalDir : Fin 4 → Vec3
  | 0 => Vec3.X
  | 1 => Vec3.NEG_X
  | 2 => Vec3.Y
  | 3 => Vec3.NEG_Y

/-- The mapped direction vectors of the keys just pressed this tick, in the
order `handle_key_input` checks them: Up→Y, Down→NEG_Y, Right→X, Left→NEG_X. -/
def keyDirs (k : Keys) : List Vec3 :=
  (if k.up then [Vec3.Y] else []) ++
  (if k.down then [Vec3.NEG_Y] else []) ++
  (if k.right then [Vec3.X] else []) ++
  (if k.left then [Vec3.NEG_X] else [])

/-- One `validate_input` body for a pressed key: score delta for cube `c`.
`&&` short-circuits in Rust, so the material is only looked up when the
direction matches; a failed lookup (`unwrap` panic) is `none`. -/
def pressDelta (mats : List (ℕ × Color)) (c : CubeEntity) (dir : Vec3) : Option ℤ :=
  if c.direction = dir then
    (findColor mats c.materialHandle).map (fun col => if col = Color.PURPLE then 1 else -5)
  else some (-5)

/-- All score deltas cube `c` receives in `handle_key_input` this tick: the
inner `validate_input` calls, one per pressed key, in key-check order;
`none` propagates an `unwrap` panic. -/
def cubePressDeltas (mats : List (ℕ × Color)) (c : CubeEntity) :
    List Vec3 → Option (List ℤ)
  | [] => some []
  | dir :: dirs =>
      (pressDelta mats c dir).bind (fun delta =>
        (cubePressDeltas mats c dirs).map (fun ds => delta :: ds))

/-- The outer `for (entity, direction, color_handle) in query.iter()` loop of
`handle_key_input`: per cube, the (cube id, score deltas) pair. -/
def resolveCubes (mats : List (ℕ × Color)) (k : Keys) :
    List CubeEntity → Option (List (ℕ × List ℤ))
  | [] => some []
  | c :: cs =>
      (cubePressDeltas mats c (keyDirs k)).bind (fun ds =>
        (resolveCubes mats k cs).map (fun rest => (c.id, ds) :: rest))

/-- `handle_key_input`: for every live cube and every just-pressed arrow key,
mutate the score (+1 on direction match with a purple material, −5
otherwise) and queue the cube for despawn.  Returns the new score, the log
of score mutations as (cube id, delta) pairs in program order, and the ids
queued for despawn (each affected cube listed once). -/
def handle_key_input (mats : List (ℕ × Color)) (cubes : List CubeEntity)
    (k : Keys) (score : ℤ) : Option (ℤ × List (ℕ × ℤ) × List ℕ) :=
  (resolveCubes mats k cubes).map
    (fun l =>
      (score + (l.map (fun p => p.2.sum)).sum,
       l.flatMap (fun p => p.2.map (fun d => (p.1, d))),
       if (keyDirs k).isEmpty then [] else cubes.map (fun c => c.id)))

/-- `movement`: `transform.translation += direction * speed * delta`. -/
def movement (cubes : List CubeEntity) (delta : ℤ) : List CubeEntity :=
  cubes.map (fun c =>
    { c with translation := c.translation.add (c.direction.smul (c.speed * delta)) })

/-- `despawn_cube`: tick every cube's despawn timer; each cube whose timer is
finished sends a `DespawnedCubeColorHandleID` event and is queued for
despawn.  Returns (ticked cubes, events, despawn ids); the source event
carries only the handle id — the cube id is carried alongside here purely
for bookkeeping in the theorems. -/
def despawn_cube (cubes : List CubeEntity) (delta : ℤ) :
    List CubeEntity × List (ℕ × ℕ) × List ℕ :=
  let ticked := cubes.map (fun c => { c with despawnTimer := c.despawnTimer.tick delta })
  let expired := ticked.filter (fun c => c.despawnTimer.finished)
  (ticked, expired.map (fun c => (c.id, c.materialHandle)), expired.map (fun c => c.id))

/-- `handle_missing_input`: for every despawn event, look the material up
(`unwrap` = `none` on failure) and deduct 5 when it is purple.  Returns the
new score and the log of mutations as (cube id, delta) pairs. -/
def handle_missing_input (mats : List (ℕ × Color)) :
    List (ℕ × ℕ) → ℤ → Option (ℤ × List (ℕ × ℤ))
  | [], score => some (score, [])
  | e :: es, score =>
      (findColor mats e.2).bind (fun col =>
        if col = Color.PURPLE then
          (handle_missing_input mats es (score - 5)).map
            (fun r => (r.1, (e.1, (-5 : ℤ)) :: r.2))
        else handle_missing_input mats es score)

/-- Cube size: `window.width().max(window.height()) * 0.05`. -/
def cubeSize (w h : ℤ) : ℤ := max w h * 5 / 100

/-- The effect of one `spawn_cube` run on the spawner state. -/
structure SpawnOut where
  timer : Timer
  pending : List CubeEntity
  materials : List (ℕ × Color)
  nextId : ℕ
deriving DecidableEq, Repr

/-- `spawn_cube`: tick the spawn timer; when it finished, draw color,
direction and speed, add a fresh material holding the drawn color, queue the
cube bundle for spawn (at the origin, with a 1 s one-shot despawn timer) and
re-randomize the spawn timer's duration to the [1.0, 1.5) s draw. -/
def spawn_cube (spawnTimer : Timer) (materials : List (ℕ × Color)) (nextId : ℕ)
    (delta : ℤ) (d : Draws) (w h : ℤ) : SpawnOut :=
  let t := spawnTimer.tick delta
  if t.finished then
    let color := if d.colorPurple then Color.PURPLE else Color.MIDNIGHT_BLUE
    let size := cubeSize w h
    let cube : CubeEntity :=
      { id := nextId
        direction := cardinalDir d.dirIndex
        speed := d.speedDraw
        translation := Vec3.ZERO
        scale := Vec3.splat size
        despawnTimer := Timer.new 1000 TimerMode.Once
        materialHandle := nextId }
    { timer := t.set_duration d.intervalDraw
      pending := [cube]
      materials := materials ++ [(nextId, color)]
      nextId := nextId + 1 }
  else
    { timer := t, pending := [], materials := materials, nextId := nextId }

/-- The scoreboard string `format!("Score: {}", score.0)`. -/
def scoreText (score : ℤ) : String := "Score: " ++ toString score

/-- `update_scoreboard` (change detection elided: it only skips redundant
string writes). -/
def update_scoreboard (texts : List TextEntity) (score : ℤ) : List TextEntity :=
  texts.map (fun t => if t.scoreboard then { t with value := scoreText score } else t)

/-- `round_setup` (`on_enter(DuringRound)`): reset the score to 0, spawn the
scoreboard text, and reset the round timer only if it is finished. -/
def round_setup (s : GameState) : GameState :=
  { s with
    score := 0
    texts := s.texts ++ [{ scoreboard := true, value := "Score:" }]
    roundTimer := if s.roundTimer.finished then s.roundTimer.reset else s.roundTimer }

/-- The `MESSAGES` constant of `after_round_setup`: three pools of three
candidate strings, indexed by score tier. -/
def MESSAGES : List (List String) :=
  [["Forgot to read the rules? :D",
    "Not really trying, are you? -_-",
    "Congrats for saving your energy!"],
   ["Great! Let's try for greater!",
    "It's easy! But there's always more to achieve, right? :)",
    "You're good with these purple cubes, aren't you?"],
   ["Wow! That's amazing!",
    "You're aiming for the sky!",
    "Stunning! Don't forget to take a break!"]]

/-- The tier selection of `after_round_setup`: score < 5, < 20, else. -/
def messagesFor (score : ℤ) : List String :=
  if score < 5 then MESSAGES.getD 0 []
  else if score < 20 then MESSAGES.getD 1 []
  else MESSAGES.getD 2 []

/-- The message chosen by `after_round_setup` for a final score, given the
`thread_rng().gen_range(0..2)` draw. -/
def chooseMsg (score : ℤ) (i : Fin 2) : String := (messagesFor score).getD i.val ""

/-- `after_round_setup` (`on_enter(AfterRound)`): spawn the instruction text
and the randomly chosen score message. -/
def after_round_setup (s : GameState) (d : Draws) : GameState :=
  { s with texts := s.texts ++
      [{ scoreboard := false, value := "Left arrow - Restart | Right arrow - Menu" },
       { scoreboard := false, value := chooseMsg s.score d.msgIndex }] }

/-- `handle_after_round_key_input` together with the transition hooks it can
trigger: Left → exit AfterRound (`cleanup::<Text>`) then enter DuringRound
(`round_setup`); Right → exit AfterRound then enter Menu (no hook). -/
def handle_after_round_key_input (s : GameState) (k : Keys) : GameState :=
  if k.left then
    round_setup { s with appState := AppState.DuringRound, texts := [] }
  else if k.right then
    { s with appState := AppState.Menu, texts := [] }
  else s

/-- One whole tick in `DuringRound`: the seven update systems in
registration order, then command application (despawns, pending spawn), then
— when `check_round_timer` queued the transition — the `on_exit(DuringRound)`
hook `cleanup::<Cube>` and the `on_enter(AfterRound)` hook
`after_round_setup`.  Returns the new state and the tick's score-mutation
log; `none` marks an `unwrap` panic. -/
def tickDuringRound (s : GameState) (k : Keys) (delta : ℤ) (d : Draws) (w h : ℤ) :
    Option (GameState × List (ℕ × ℤ)) :=
  let sp := spawn_cube s.spawnTimer s.materials s.nextId delta d w h
  let cubes1 := movement s.cubes delta
  (handle_key_input sp.materials cubes1 k s.score).bind (fun r1 =>
    let texts1 := update_scoreboard s.texts r1.1
    let dc := despawn_cube cubes1 delta
    (handle_missing_input sp.materials dc.2.1 r1.1).map (fun r2 =>
      let rt := s.roundTimer.tick delta
      let removed := r1.2.2 ++ dc.2.2
      let cubes2 := (dc.1.filter (fun c => !(removed.contains c.id))) ++ sp.pending
      let base : GameState :=
        { appState := AppState.DuringRound
          score := r2.1
          cubes := cubes2
          materials := sp.materials
          spawnTimer := sp.timer
          roundTimer := rt
          nextId := sp.nextId
          texts := texts1 }
      if rt.justFinished then
        (after_round_setup { base with appState := AppState.AfterRound, cubes := [] } d,
         r1.2.1 ++ r2.2)
      else (base, r1.2.1 ++ r2.2)))

/-- One tick of the whole app.  In `Menu` no core system is registered at
all; in `AfterRound` only `handle_after_round_key_input` runs. -/
def tick (s : GameState) (k : Keys) (delta : ℤ) (d : Draws) (w h : ℤ) :
    Option (GameState × List (ℕ × ℤ)) :=
  match s.appState with
  | AppState.Menu => some (s, [])
  | AppState.DuringRound => tickDuringRound s k delta d w h
  | AppState.AfterRound => some (handle_after_round_key_input s k, [])

/-- The resources `setup` inserts at startup: spawn timer 2 s repeating,
round timer 30 s one-shot, score 0, plus the initial state `DuringRound` of
`add_state`. -/
def initialState : GameState :=
  { appState := AppState.DuringRound
    score := 0
    cubes := []
    materials := []
    spawnTimer := Timer.new 2000 TimerMode.Repeating
    roundTimer := Timer.new 30000 TimerMode.Once
    nextId := 0
    texts := [] }

/-- The state after the first frame's `on_enter(DuringRound)` hook ran for
the initial state. -/
def startState : GameState := round_setup initialState

/-- Reachable world states: the start state, closed under ticks with
non-negative deltas (deltas are trusted to be ≥ 0). -/
inductive Reachable : GameState → Prop where
  | start : Reachable startState
  | step (s s' : GameState) (k : Keys) (delta : ℤ) (d : Draws) (w h : ℤ)
      (hd : 0 ≤ delta) (hs : Reachable s)
      (ht : ∃ log, tick s k delta d w h = some (s', log)) : Reachable s'

/-! ## Helper definitions for stating the properties -/

/-- The score delta one `validate_input` call applies, as a total function of
the cube's material color. -/
def pressDeltaVal (col : Color) (c : CubeEntity) (dir : Vec3) : ℤ :=
  if c.direction = dir ∧ col = Color.PURPLE then 1 else -5

/-- How many score mutations of a tick's log hit the cube with id `i`. -/
def logCount (log : List (ℕ × ℤ)) (i : ℕ) : ℕ :=
  (log.filter (fun p => p.1 == i)).length

/-- Every listed cube's material handle resolves in the material store. -/
def MatsCover (mats : List (ℕ × Color)) (cubes : List CubeEntity) : Prop :=
  ∀ c ∈ cubes, (findColor mats c.materialHandle).isSome = true

/-- The state invariant every reachable state satisfies. -/
structure Inv (s : GameState) : Prop where
  cover : MatsCover s.materials s.cubes
  cubesOutside : s.appState ≠ AppState.DuringRound → s.cubes = []
  roundDuration : s.roundTimer.duration = 30000
  roundMode : s.roundTimer.mode = TimerMode.Once

/-! ## Timer lemmas -/

theorem Timer.tick_duration (t : Timer) (delta : ℤ) :
    (t.tick delta).duration = t.duration := by
  unfold Timer.tick
  split
  · rfl
  · dsimp only
    split
    · split <;> rfl
    · rfl

theorem Timer.tick_mode (t : Timer) (delta : ℤ) : (t.tick delta).mode = t.mode := by
  unfold Timer.tick
  split
  · rfl
  · dsimp only
    split
    · split <;> rfl
    · rfl

theorem Timer.reset_duration (t : Timer) : t.reset.duration = t.duration := rfl

theorem Timer.reset_mode (t : Timer) : t.reset.mode = t.mode := rfl

theorem Timer.set_duration_mode (t : Timer) (d : ℤ) : (t.set_duration d).mode = t.mode := rfl

/-! ## Material-store lemmas -/

theorem findColor_append_isSome (m m' : List (ℕ × Color)) (handle : ℕ)
    (hm : (findColor m handle).isSome = true) :
    (findColor (m ++ m') handle).isSome = true := by
  unfold findColor at *
  rw [List.find?_append]
  rcases hfind : m.find? (fun p => p.1 == handle) with _ | p
  · rw [hfind] at hm
    simp at hm
  · simp [Option.or, hfind]

theorem findColor_append_self (m : List (ℕ × Color)) (handle : ℕ) (col : Color) :
    (findColor (m ++ [(handle, col)]) handle).isSome = true := by
  unfold findColor
  rw [List.find?_append]
  rcases hfind : m.find? (fun p => p.1 == handle) with _ | p <;> rw [hfind]
  · simp [List.find?, Option.or]
  · rfl

/-! ## Closed forms of the input resolver and the reaper -/

theorem pressDelta_eq (mats : List (ℕ × Color)) (c : CubeEntity) (dir : Vec3)
    (col : Color) (hcol : findColor mats c.materialHandle = some col) :
    pressDelta mats c dir = some (pressDeltaVal col c dir) := by
  unfold pressDelta pressDeltaVal
  by_cases hd : c.direction = dir
  · simp [hd, hcol]
  · simp [hd]

theorem cubePressDeltas_eq (mats : List (ℕ × Color)) (c : CubeEntity) (col : Color)
    (hcol : findColor mats c.materialHandle = some col) :
    ∀ dirs : List Vec3,
      cubePressDeltas mats c dirs = some (dirs.map (pressDeltaVal col c))
  | [] => rfl
  | dir :: dirs => by
      rw [cubePressDeltas, pressDelta_eq mats c dir col hcol,
        cubePressDeltas_eq mats c col hcol dirs]
      rfl

/-- The color the resolver sees for cube `c` (total form; the default is
irrelevant under `MatsCover`). -/
def seenColor (mats : List (ℕ × Color)) (c : CubeEntity) : Color :=
  (findColor mats c.materialHandle).getD Color.PURPLE

theorem resolveCubes_eq (mats : List (ℕ × Color)) (k : Keys) :
    ∀ cubes : List CubeEntity, MatsCover mats cubes →
      resolveCubes mats k cubes =
        some (cubes.map (fun c =>
          (c.id, (keyDirs k).map (pressDeltaVal (seenColor mats c) c))))
  | [], _ => rfl
  | c :: cs, hcov => by
      obtain ⟨col, hcol⟩ := Option.isSome_iff_exists.mp (hcov c (by simp))
      have hcs : MatsCover mats cs := fun c' hc' => hcov c' (by simp [hc'])
      rw [resolveCubes, cubePressDeltas_eq mats c col hcol,
        resolveCubes_eq mats k cs hcs]
      simp [seenColor, hcol]

theorem handle_key_input_eq (mats : List (ℕ × Color)) (cubes : List CubeEntity)
    (k : Keys) (score : ℤ) (hcov : MatsCover mats cubes) :
    handle_key_input mats cubes k score =
      some (score + (cubes.map (fun c =>
              ((keyDirs k).map (pressDeltaVal (seenColor mats c) c)).sum)).sum,
            cubes.flatMap (fun c =>
              ((keyDirs k).map (pressDeltaVal (seenColor mats c) c)).map
                (fun delta => (c.id, delta))),
            if (keyDirs k).isEmpty then [] else cubes.map (fun c => c.id)) := by
  unfold handle_key_input
  rw [resolveCubes_eq mats k cubes hcov, Option.map_some', List.flatMap_map,
    List.map_map]
  rfl

theorem handle_missing_input_eq (mats : List (ℕ × Color)) :
    ∀ (events : List (ℕ × ℕ)) (score : ℤ),
      (∀ e ∈ events, (findColor mats e.2).isSome = true) →
      handle_missing_input mats events score =
        some (score - 5 * ((events.filter
                (fun e => findColor mats e.2 == some Color.PURPLE)).length : ℤ),
              (events.filter (fun e => findColor mats e.2 == some Color.PURPLE)).map
                (fun e => (e.1, (-5 : ℤ))))
  | [], score, _ => by simp [handle_missing_input]
  | e :: es, score, hall => by
      obtain ⟨col, hcol⟩ := Option.isSome_iff_exists.mp (hall e (by simp))
      have hes : ∀ e' ∈ es, (findColor mats e'.2).isSome = true :=
        fun e' he' => hall e' (by simp [he'])
      rw [handle_missing_input, hcol, Option.some_bind]
      by_cases hcolp : col = Color.PURPLE
      · rw [if_pos hcolp, handle_missing_input_eq mats es (score - 5) hes]
        have hbeq : (findColor mats e.2 == some Color.PURPLE) = true := by
          rw [hcol, hcolp]; rfl
        simp only [Option.map_some', List.filter_cons, hbeq, if_true, List.map_cons,
          List.length_cons, Option.some.injEq, Prod.mk.injEq, and_true, true_and]
        push_cast
        ring
      · rw [if_neg hcolp, handle_missing_input_eq mats es score hes]
        have hbeq : (findColor mats e.2 == some Color.PURPLE) = false := by
          rw [hcol]
          exact beq_eq_false_iff_ne.mpr (by simp [hcolp])
        simp only [List.filter_cons, hbeq, Bool.false_eq_true, if_false]

theorem despawn_cube_eq (cubes : List CubeEntity) (delta : ℤ) :
    despawn_cube cubes delta =
      (cubes.map (fun c => { c with despawnTimer := c.despawnTimer.tick delta }),
       (cubes.filter (fun c => (c.despawnTimer.tick delta).finished)).map
         (fun c => (c.id, c.materialHandle)),
       (cubes.filter (fun c => (c.despawnTimer.tick delta).finished)).map
         (fun c => c.id)) := by
  unfold despawn_cube
  dsimp only
  rw [List.filter_map, List.map_map, List.map_map]
  rfl

/-! ## State dispatch lemmas for `tick` -/

theorem tick_menu (s : GameState) (k : Keys) (delta : ℤ) (d : Draws) (w h : ℤ)
    (hm : s.appState = AppState.Menu) : tick s k delta d w h = some (s, []) := by
  unfold tick
  rw [hm]

theorem tick_afterRound (s : GameState) (k : Keys) (delta : ℤ) (d : Draws) (w h : ℤ)
    (hA : s.appState = AppState.AfterRound) :
    tick s k delta d w h = some (handle_after_round_key_input s k, []) := by
  unfold tick
  rw [hA]

theorem tick_duringRound (s : GameState) (k : Keys) (delta : ℤ) (d : Draws) (w h : ℤ)
    (hD : s.appState = AppState.DuringRound) :
    tick s k delta d w h = tickDuringRound s k delta d w h := by
  unfold tick
  rw [hD]

/-! ## Counting a single cube's score mutations -/

theorem logCount_append (l1 l2 : List (ℕ × ℤ)) (i : ℕ) :
    logCount (l1 ++ l2) i = logCount l1 i + logCount l2 i := by
  unfold logCount
  rw [List.filter_append, List.length_append]

theorem logCount_map_const (j i : ℕ) :
    ∀ ds : List ℤ, logCount ((ds.map (fun d => (j, d))) : List (ℕ × ℤ)) i =
      if j = i then ds.length else 0
  | [] => by simp [logCount]
  | d :: ds => by
      have ih := logCount_map_const j i ds
      unfold logCount at ih ⊢
      by_cases hj : j = i
      · have hb : (j == i) = true := beq_iff_eq.mpr hj
        simp only [List.map_cons, List.filter_cons, hb, if_true, List.length_cons,
          if_pos hj] at ih ⊢
        omega
      · have hb : (j == i) = false := beq_eq_false_iff_ne.mpr hj
        simp only [List.map_cons, List.filter_cons, hb, Bool.false_eq_true, if_false,
          if_neg hj] at ih ⊢
        exact ih

theorem logCount_flatMap_zero (g : CubeEntity → List ℤ) :
    ∀ (cubes : List CubeEntity) (i : ℕ), i ∉ cubes.map (fun c' => c'.id) →
      logCount (cubes.flatMap (fun c' => (g c').map (fun d => (c'.id, d)))) i = 0
  | [], _, _ => rfl
  | c0 :: cs, i, hni => by
      rw [List.flatMap_cons, logCount_append, logCount_map_const,
        logCount_flatMap_zero g cs i (fun hmem => hni (by simp [hmem]))]
      have h0 : c0.id ≠ i := fun he => hni (by simp [he])
      rw [if_neg h0]

theorem logCount_flatMap_id (g : CubeEntity → List ℤ) :
    ∀ (cubes : List CubeEntity) (c : CubeEntity),
      (cubes.map (fun c' => c'.id)).Nodup → c ∈ cubes →
      logCount (cubes.flatMap (fun c' => (g c').map (fun d => (c'.id, d)))) c.id
        = (g c).length
  | [], c, _, hc => absurd hc (List.not_mem_nil c)
  | c0 :: cs, c, hnd, hc => by
      rw [List.map_cons, List.nodup_cons] at hnd
      rw [List.flatMap_cons, logCount_append, logCount_map_const]
      rcases List.mem_cons.mp hc with h0 | hmem
      · subst h0
        rw [if_pos rfl, logCount_flatMap_zero g cs c.id hnd.1]
        omega
      · have hne : c0.id ≠ c.id := by
          intro he
          exact hnd.1 (he ▸ List.mem_map.mpr ⟨c, hmem, rfl⟩)
        rw [if_neg hne, logCount_flatMap_id g cs c hnd.2 hmem]
        omega

theorem logCount_map_id_const (v : ℤ) (l : List CubeEntity) (i : ℕ) :
    logCount (l.map (fun c => (c.id, v))) i = (l.filter (fun c => c.id == i)).length := by
  unfold logCount
  rw [List.filter_map, List.length_map]
  rfl

theorem length_filter_filter_id (q : CubeEntity → Bool) :
    ∀ (cubes : List CubeEntity) (c : CubeEntity),
      (cubes.map (fun c' => c'.id)).Nodup → c ∈ cubes →
      ((cubes.filter q).filter (fun c' => c'.id == c.id)).length = if q c then 1 else 0
  | [], c, _, hc => absurd hc (List.not_mem_nil c)
  | c0 :: cs, c, hnd, hc => by
      rw [List.map_cons, List.nodup_cons] at hnd
      rcases List.mem_cons.mp hc with h0 | hmem
      · subst h0
        have hrest : (cs.filter q).filter (fun c' => c'.id == c.id) = [] := by
          rw [List.filter_eq_nil_iff]
          intro a ha hbeq
          exact hnd.1 (beq_iff_eq.mp hbeq ▸
            List.mem_map.mpr ⟨a, List.mem_of_mem_filter ha, rfl⟩)
        by_cases hq : q c
        · rw [List.filter_cons, if_pos hq, List.filter_cons,
            if_pos (beq_self_eq_true c.id), hrest, if_pos hq]
          rfl
        · rw [List.filter_cons, if_neg (by simpa using hq), hrest, if_neg hq]
          rfl
      · have hne : (c0.id == c.id) = false := by
          refine beq_eq_false_iff_ne.mpr fun he => ?_
          exact hnd.1 (he ▸ List.mem_map.mpr ⟨c, hmem, rfl⟩)
        have ih := length_filter_filter_id q cs c hnd.2 hmem
        by_cases hq0 : q c0
        · rw [List.filter_cons, if_pos hq0, List.filter_cons, hne]
          simpa using ih
        · rw [List.filter_cons, if_neg (by simpa using hq0)]
          exact ih

/-! ## Invariant machinery -/

theorem matsCover_append (mats tail : List (ℕ × Color)) (cubes : List CubeEntity)
    (hcov : MatsCover mats cubes) : MatsCover (mats ++ tail) cubes :=
  fun c hc => findColor_append_isSome mats tail c.materialHandle (hcov c hc)

theorem matsCover_movement (mats : List (ℕ × Color)) (cubes : List CubeEntity)
    (delta : ℤ) (hcov : MatsCover mats cubes) :
    MatsCover mats (movement cubes delta) := by
  intro c hc
  obtain ⟨c0, hc0, rfl⟩ := List.mem_map.mp hc
  exact hcov c0 hc0

theorem spawn_cube_materials_mono (st : Timer) (mats : List (ℕ × Color)) (nid : ℕ)
    (delta : ℤ) (d : Draws) (w h : ℤ) :
    ∃ tail, (spawn_cube st mats nid delta d w h).materials = mats ++ tail := by
  unfold spawn_cube
  dsimp only
  split
  · exact ⟨_, rfl⟩
  · exact ⟨[], (List.append_nil mats).symm⟩

theorem spawn_cube_pending_cover (st : Timer) (mats : List (ℕ × Color)) (nid : ℕ)
    (delta : ℤ) (d : Draws) (w h : ℤ) :
    MatsCover (spawn_cube st mats nid delta d w h).materials
      (spawn_cube st mats nid delta d w h).pending := by
  unfold spawn_cube
  dsimp only
  split
  · intro c hc
    rw [List.mem_singleton] at hc
    subst hc
    exact findColor_append_self mats nid _
  · intro c hc
    exact absurd hc (List.not_mem_nil c)

theorem inv_start : Inv startState := by
  refine ⟨?_, ?_, rfl, rfl⟩
  · intro c hc
    exact absurd hc (List.not_mem_nil c)
  · intro _
    rfl

theorem tickDuringRound_some (s : GameState) (k : Keys) (delta : ℤ) (d : Draws)
    (w h : ℤ) (hcov : MatsCover s.materials s.cubes) :
    ∃ s' log, tickDuringRound s k delta d w h = some (s', log) ∧
      MatsCover s'.materials s'.cubes ∧
      (s'.appState ≠ AppState.DuringRound → s'.cubes = []) ∧
      s'.roundTimer.duration = s.roundTimer.duration ∧
      s'.roundTimer.mode = s.roundTimer.mode := by
  obtain ⟨tail, hmats⟩ :=
    spawn_cube_materials_mono s.spawnTimer s.materials s.nextId delta d w h
  have hcov1 : MatsCover
      (spawn_cube s.spawnTimer s.materials s.nextId delta d w h).materials
      (movement s.cubes delta) := by
    rw [hmats]
    exact matsCover_append _ _ _ (matsCover_movement _ _ _ hcov)
  have hev : ∀ e ∈ (despawn_cube (movement s.cubes delta) delta).2.1,
      (findColor (spawn_cube s.spawnTimer s.materials s.nextId delta d w h).materials
        e.2).isSome = true := by
    intro e he
    rw [despawn_cube_eq] at he
    obtain ⟨c, hcmem, rfl⟩ := List.mem_map.mp he
    exact hcov1 c (List.mem_of_mem_filter hcmem)
  unfold tickDuringRound
  dsimp only
  rw [handle_key_input_eq _ _ k s.score hcov1, Option.some_bind]
  dsimp only
  rw [handle_missing_input_eq _ _ _ hev, Option.map_some']
  dsimp only
  by_cases hj : (s.roundTimer.tick delta).justFinished = true
  · rw [if_pos hj]
    refine ⟨_, _, rfl, ?_, ?_, ?_, ?_⟩
    · intro c hc
      exact absurd hc (List.not_mem_nil c)
    · intro _
      rfl
    · exact Timer.tick_duration s.roundTimer delta
    · exact Timer.tick_mode s.roundTimer delta
  · rw [if_neg hj]
    refine ⟨_, _, rfl, ?_, ?_, ?_, ?_⟩
    · intro c hc
      rcases List.mem_append.mp hc with hc1 | hc2
      · have hc1' := List.mem_of_mem_filter hc1
        rw [despawn_cube_eq] at hc1'
        obtain ⟨c0, hc0, rfl⟩ := List.mem_map.mp hc1'
        exact hcov1 c0 hc0
      · exact spawn_cube_pending_cover s.spawnTimer s.materials s.nextId delta d w h c hc2
    · intro hcontra
      exact (hcontra rfl).elim
    · exact Timer.tick_duration s.roundTimer delta
    · exact Timer.tick_mode s.roundTimer delta

theorem tick_some_inv (s : GameState) (k : Keys) (delta : ℤ) (d : Draws) (w h : ℤ)
    (hinv : Inv s) :
    ∃ s' log, tick s k delta d w h = some (s', log) ∧ Inv s' := by
  rcases happ : s.appState with _ | _ | _
  · exact ⟨s, [], tick_menu s k delta d w h happ, hinv⟩
  · obtain ⟨s', log, hts, hcov', hout', hdur, hmode⟩ :=
      tickDuringRound_some s k delta d w h hinv.cover
    exact ⟨s', log, (tick_duringRound s k delta d w h happ).trans hts,
      ⟨hcov', hout', hdur.trans hinv.roundDuration, hmode.trans hinv.roundMode⟩⟩
  · refine ⟨handle_after_round_key_input s k, [],
      tick_afterRound s k delta d w h happ, ?_⟩
    have hcubes : s.cubes = [] := by
      refine hinv.cubesOutside ?_
      rw [happ]
      intro hcontra
      cases hcontra
    unfold handle_after_round_key_input
    by_cases hl : k.left = true
    · rw [if_pos hl]
      refine ⟨hinv.cover, ?_, ?_, ?_⟩
      · intro hcontra
        exact (hcontra rfl).elim
      · show (if s.roundTimer.finished = true then s.roundTimer.reset
            else s.roundTimer).duration = 30000
        split
        · exact hinv.roundDuration
        · exact hinv.roundDuration
      · show (if s.roundTimer.finished = true then s.roundTimer.reset
            else s.roundTimer).mode = TimerMode.Once
        split
        · exact hinv.roundMode
        · exact hinv.roundMode
    · rw [if_neg hl]
      by_cases hr : k.right = true
      · rw [if_pos hr]
        exact ⟨hinv.cover, fun _ => hcubes, hinv.roundDuration, hinv.roundMode⟩
      · rw [if_neg hr]
        exact hinv

theorem reachable_inv (s : GameState) (hs : Reachable s) : Inv s := by
  induction hs with
  | start => exact inv_start
  | step s s' k delta d w h hd hs ht ih =>
      obtain ⟨log, hlog⟩ := ht
      obtain ⟨s'', log', hts, hinv⟩ := tick_some_inv s k delta d w h ih
      rw [hlog] at hts
      have h1 : s' = s'' := congrArg Prod.fst (Option.some.inj hts)
      rw [h1]
      exact hinv

/-! ## Concrete inputs used in counterexamples and witnesses -/

def keysNone : Keys := { up := false, down := false, left := false, right := false }

def keysUp : Keys := { up := true, down := false, left := false, right := false }

def keysUpDown : Keys := { up := true, down := true, left := false, right := false }

def keysLeft : Keys := { up := false, down := false, left := true, right := false }

def keysRight : Keys := { up := false, down := false, left := false, right := true }

def draws0 : Draws :=
  { colorPurple := true, dirIndex := 0, speedDraw := 12, intervalDraw := 1200,
    msgIndex := 0 }

/-- A purple cube travelling up (`Vec3::Y`), lifetime untouched. -/
def upCube : CubeEntity :=
  { id := 0, direction := Vec3.Y, speed := 10, translation := Vec3.ZERO,
    scale := Vec3.splat 5, despawnTimer := Timer.new 1000 TimerMode.Once,
    materialHandle := 0 }

/-- The same cube travelling left (`Vec3::NEG_X`). -/
def leftCube : CubeEntity := { upCube with direction := Vec3.NEG_X }

/-- A mid-round state holding exactly the given cube, purple material 0. -/
def oneCubeState (c : CubeEntity) : GameState :=
  { appState := AppState.DuringRound
    score := 0
    cubes := [c]
    materials := [(0, Color.PURPLE)]
    spawnTimer := Timer.new 2000 TimerMode.Repeating
    roundTimer := Timer.new 30000 TimerMode.Once
    nextId := 1
    texts := [] }

/-- The state one 30 s tick after the start: the round has just ended. -/
def afterState : GameState :=
  ((tick startState keysNone 30000 draws0 100 100).getD (startState, [])).1

/-- The state after pressing the restart key (Left) in `afterState`. -/
def restartState : GameState :=
  ((tick afterState keysLeft 0 draws0 100 100).getD (startState, [])).1

/-- The Menu state reached by ending a round and pressing Right. -/
def menuState : GameState :=
  ((tick afterState keysRight 0 draws0 100 100).getD (startState, [])).1

/-- The state one small (1 s) tick after the start. -/
def smallTickState : GameState :=
  ((tick startState keysNone 1000 draws0 100 100).getD (startState, [])).1

theorem reachable_afterState : Reachable afterState :=
  Reachable.step startState afterState keysNone 30000 draws0 100 100 (by decide)
    Reachable.start ⟨[], by rfl⟩

/-! ## C1 -/

/-- C1 is false on the code: in a round state whose only live cube travels
left (`NEG_X`), pressing the Up key deducts 5 points, removes that cube, and
logs a mutation against it — the press affects a cube whose direction does
not match Up's mapped vector `Y`, and a press with no matching-direction
cube on screen is not a no-op. -/
theorem c1_counterexample :
    (tick (oneCubeState leftCube) keysUp 0 draws0 100 100).map
      (fun p => (p.1.score, p.1.cubes.length, p.2)) = some (-5, 0, [(0, -5)]) := by
  decide

/-- C1 (amended): a pressed directional key affects *every* live cube
regardless of direction: each live cube receives exactly one score mutation
per pressed key — +1 when its direction matches the key's mapped vector and
its material is purple, −5 otherwise (the mutation log below lists them per
cube in key-check order, and `seenColor` is proved to be the cube's actual
looked-up material color) — the score becomes the old score plus the sum of
all these deltas, and every live cube is queued for despawn whenever at
least one key is pressed; only a press with no live cubes at all causes no
score change and removes nothing. -/
theorem c1_amended_press_affects_every_cube (mats : List (ℕ × Color))
    (cubes : List CubeEntity) (k : Keys) (score : ℤ)
    (hcov : MatsCover mats cubes) :
    ∃ sc log desp, handle_key_input mats cubes k score = some (sc, log, desp) ∧
      log = cubes.flatMap (fun c => (keyDirs k).map (fun dir =>
        (c.id, if c.direction = dir ∧ seenColor mats c = Color.PURPLE
          then (1 : ℤ) else -5))) ∧
      sc = score + (cubes.map (fun c => ((keyDirs k).map (fun dir =>
        if c.direction = dir ∧ seenColor mats c = Color.PURPLE
          then (1 : ℤ) else -5)).sum)).sum ∧
      (∀ c ∈ cubes, findColor mats c.materialHandle = some (seenColor mats c)) ∧
      desp = (if (keyDirs k).isEmpty then [] else cubes.map (fun c => c.id)) ∧
      (cubes = [] → sc = score ∧ log = [] ∧ desp = []) := by
  refine ⟨_, _, _, handle_key_input_eq mats cubes k score hcov, ?_, rfl, ?_, rfl, ?_⟩
  · have hfun : (fun c : CubeEntity =>
        ((keyDirs k).map (pressDeltaVal (seenColor mats c) c)).map
          (fun delta => (c.id, delta))) =
        (fun c : CubeEntity => (keyDirs k).map (fun dir =>
          (c.id, if c.direction = dir ∧ seenColor mats c = Color.PURPLE
            then (1 : ℤ) else -5))) := by
      funext c
      rw [List.map_map]
      rfl
    rw [hfun]
  · intro c hc
    obtain ⟨col, hcol⟩ := Option.isSome_iff_exists.mp (hcov c hc)
    unfold seenColor
    rw [hcol]
    rfl
  · intro hnil
    subst hnil
    refine ⟨by simp, rfl, by simp⟩

theorem c1_amended_witness :
    ∃ sc log desp,
      handle_key_input (oneCubeState leftCube).materials (oneCubeState leftCube).cubes
        keysUp 0 = some (sc, log, desp) ∧
      log = (oneCubeState leftCube).cubes.flatMap (fun c =>
        (keyDirs keysUp).map (fun dir =>
          (c.id, if c.direction = dir ∧
              seenColor (oneCubeState leftCube).materials c = Color.PURPLE
            then (1 : ℤ) else -5))) ∧
      sc = 0 + ((oneCubeState leftCube).cubes.map (fun c =>
        ((keyDirs keysUp).map (fun dir =>
          if c.direction = dir ∧
              seenColor (oneCubeState leftCube).materials c = Color.PURPLE
            then (1 : ℤ) else -5)).sum)).sum ∧
      (∀ c ∈ (oneCubeState leftCube).cubes,
        findColor (oneCubeState leftCube).materials c.materialHandle =
          some (seenColor (oneCubeState leftCube).materials c)) ∧
      desp = (if (keyDirs keysUp).isEmpty then []
        else (oneCubeState leftCube).cubes.map (fun c => c.id)) ∧
      ((oneCubeState leftCube).cubes = [] → sc = 0 ∧ log = [] ∧ desp = []) :=
  c1_amended_press_affects_every_cube _ _ _ _ (by
    intro c hc
    cases hc with
    | head => rfl
    | tail _ h => cases h)

/-! ## C2 -/

/-- C2 is false on the code: with one purple up-travelling cube live and both
Up and Down freshly pressed in the same tick, the input resolver mutates the
same cube's score twice in that single tick (+1 for the Up match, −5 for the
Down mismatch; net −4). -/
theorem c2_counterexample :
    (tick (oneCubeState upCube) keysUpDown 0 draws0 100 100).map
      (fun p => (p.1.score, p.2)) = some (-4, [(0, 1), (0, -5)]) := by
  decide

/-- C2 (amended): in one tick a live cube receives exactly one score mutation
from the input resolver per directional key pressed that tick, and exactly
one further −5 mutation from the reaper path exactly when its lifetime timer
finishes that tick and its material is purple (removal is deferred to the end
of the tick, so these can coincide); every logged mutation names a live
cube's id, so a cube absent from the store is never scored. -/
theorem c2_amended_mutations_per_tick (mats : List (ℕ × Color))
    (cubes : List CubeEntity) (k : Keys) (delta : ℤ) (score : ℤ) (c : CubeEntity)
    (hc : c ∈ cubes) (hnd : (cubes.map (fun c' => c'.id)).Nodup)
    (hcov : MatsCover mats cubes) :
    ∃ sc log desp, handle_key_input mats cubes k score = some (sc, log, desp) ∧
      logCount log c.id = (keyDirs k).length ∧
      ∃ sc2 log2,
        handle_missing_input mats (despawn_cube cubes delta).2.1 sc = some (sc2, log2) ∧
        logCount log2 c.id =
          (if (c.despawnTimer.tick delta).finished = true ∧
              findColor mats c.materialHandle = some Color.PURPLE then 1 else 0) ∧
        (∀ p ∈ log ++ log2, p.1 ∈ cubes.map (fun c' => c'.id)) := by
  have hev : ∀ e ∈ (despawn_cube cubes delta).2.1,
      (findColor mats e.2).isSome = true := by
    intro e he
    rw [despawn_cube_eq] at he
    obtain ⟨c0, hcmem, rfl⟩ := List.mem_map.mp he
    exact hcov c0 (List.mem_of_mem_filter hcmem)
  rw [handle_key_input_eq mats cubes k score hcov]
  refine ⟨_, _, _, rfl, ?_, ?_⟩
  · rw [logCount_flatMap_id _ cubes c hnd hc, List.length_map]
  · rw [despawn_cube_eq, handle_missing_input_eq _ _ _ (by
      rw [despawn_cube_eq] at hev
      exact hev)]
    refine ⟨_, _, rfl, ?_, ?_⟩
    · rw [List.filter_map, List.map_map]
      simp only [Function.comp_def]
      rw [List.filter_filter, logCount_map_id_const,
        length_filter_filter_id _ cubes c hnd hc]
      by_cases hfin : (c.despawnTimer.tick delta).finished = true
      · by_cases hpur : findColor mats c.materialHandle = some Color.PURPLE
        · simp [hfin, hpur]
        · simp [hfin, hpur]
      · simp [hfin]
    · intro p hp
      rcases List.mem_append.mp hp with hp1 | hp2
      · obtain ⟨c0, hc0, hpm⟩ := List.mem_flatMap.mp hp1
        obtain ⟨dlt, _, rfl⟩ := List.mem_map.mp hpm
        exact List.mem_map.mpr ⟨c0, hc0, rfl⟩
      · obtain ⟨e, he, rfl⟩ := List.mem_map.mp hp2
        obtain ⟨c0, hc0, rfl⟩ := List.mem_map.mp (List.mem_of_mem_filter he)
        exact List.mem_map.mpr ⟨c0, List.mem_of_mem_filter hc0, rfl⟩

theorem c2_amended_witness :
    ∃ sc log desp,
      handle_key_input (oneCubeState upCube).materials (oneCubeState upCube).cubes
        keysUpDown 0 = some (sc, log, desp) ∧
      logCount log upCube.id = (keyDirs keysUpDown).length ∧
      ∃ sc2 log2,
        handle_missing_input (oneCubeState upCube).materials
          (despawn_cube (oneCubeState upCube).cubes 1000).2.1 sc = some (sc2, log2) ∧
        logCount log2 upCube.id =
          (if (upCube.despawnTimer.tick 1000).finished = true ∧
              findColor (oneCubeState upCube).materials upCube.materialHandle =
                some Color.PURPLE then 1 else 0) ∧
        (∀ p ∈ log ++ log2,
          p.1 ∈ (oneCubeState upCube).cubes.map (fun c' => c'.id)) :=
  c2_amended_mutations_per_tick _ _ keysUpDown 1000 0 upCube (by decide) (by decide)
    (by
      intro c hc
      cases hc with
      | head => rfl
      | tail _ h => cases h)

/-! ## C3 -/

/-- C3: each scoring event's delta is exactly as specified — a resolved press
on a cube yields +1 exactly when the cube's direction matches the key's
vector and its material is purple, and −5 in every other resolved case; a
lifetime-expiry event deducts exactly 5 for a purple material and changes the
score by 0 (no mutation at all) for a non-purple one. -/
theorem c3_score_deltas (mats : List (ℕ × Color)) (c : CubeEntity) (dir : Vec3)
    (col : Color) (i : ℕ) (score : ℤ)
    (hcol : findColor mats c.materialHandle = some col) :
    pressDelta mats c dir =
      some (if c.direction = dir ∧ col = Color.PURPLE then 1 else -5) ∧
    handle_missing_input mats [(i, c.materialHandle)] score =
      some (if col = Color.PURPLE then (score - 5, [(i, (-5 : ℤ))])
        else (score, [])) := by
  constructor
  · exact pressDelta_eq mats c dir col hcol
  · simp only [handle_missing_input, hcol, Option.some_bind, Option.map_some']
    by_cases hp : col = Color.PURPLE
    · rw [if_pos hp, if_pos hp]
    · rw [if_neg hp, if_neg hp]

theorem c3_witness :
    pressDelta (oneCubeState upCube).materials upCube Vec3.Y =
      some (if upCube.direction = Vec3.Y ∧ Color.PURPLE = Color.PURPLE then 1
        else -5) ∧
    handle_missing_input (oneCubeState upCube).materials
        [(0, upCube.materialHandle)] 7 =
      some (if Color.PURPLE = Color.PURPLE then ((7 : ℤ) - 5, [(0, (-5 : ℤ))])
        else (7, [])) :=
  c3_score_deltas _ upCube Vec3.Y Color.PURPLE 0 7 (by rfl)

/-! ## C4 -/

/-- C4: whenever a tick moves a reachable state that is not in DuringRound
into DuringRound (entering from Menu or from AfterRound), the resulting
state has score 0 and no live cubes. -/
theorem c4_round_reset (s s' : GameState) (k : Keys) (delta : ℤ) (d : Draws)
    (w h : ℤ) (log : List (ℕ × ℤ)) (hs : Reachable s)
    (ht : tick s k delta d w h = some (s', log))
    (hfrom : s.appState ≠ AppState.DuringRound)
    (hto : s'.appState = AppState.DuringRound) :
    s'.score = 0 ∧ s'.cubes = [] := by
  have hinv := reachable_inv s hs
  rcases happ : s.appState with _ | _ | _
  · rw [tick_menu s k delta d w h happ] at ht
    have h1 : s = s' := congrArg Prod.fst (Option.some.inj ht)
    rw [← h1, happ] at hto
    cases hto
  · exact absurd happ hfrom
  · rw [tick_afterRound s k delta d w h happ] at ht
    have h1 : handle_after_round_key_input s k = s' :=
      congrArg Prod.fst (Option.some.inj ht)
    have hcubes : s.cubes = [] := by
      refine hinv.cubesOutside ?_
      rw [happ]
      intro hcontra
      cases hcontra
    rw [← h1]
    rw [← h1] at hto
    unfold handle_after_round_key_input at hto ⊢
    by_cases hl : k.left = true
    · rw [if_pos hl]
      exact ⟨rfl, hcubes⟩
    · rw [if_neg hl] at hto
      by_cases hr : k.right = true
      · rw [if_pos hr] at hto
        cases hto
      · rw [if_neg hr] at hto
        rw [happ] at hto
        cases hto

theorem c4_witness : restartState.score = 0 ∧ restartState.cubes = [] :=
  c4_round_reset afterState restartState keysLeft 0 draws0 100 100 []
    reachable_afterState (by rfl) (by decide) (by rfl)

/-! ## C5 -/

/-- C5: the round state machine — every reachable state's round timer is the
30 s one-shot timer; a DuringRound tick always ticks the round timer and
moves to AfterRound exactly when that tick reports `just_finished` (staying
in DuringRound otherwise); an AfterRound tick moves to DuringRound on Left,
to Menu on Right (Left wins when both are pressed), otherwise stays, never
changes the cube store, keeps the score unless restarting, and is the
identity when neither key is pressed (no spawning, no scoring). -/
theorem c5_round_state_machine (s s' : GameState) (k : Keys) (delta : ℤ)
    (d : Draws) (w h : ℤ) (log : List (ℕ × ℤ)) (hs : Reachable s)
    (ht : tick s k delta d w h = some (s', log)) :
    (s.roundTimer.duration = 30000 ∧ s.roundTimer.mode = TimerMode.Once) ∧
    (s.appState = AppState.DuringRound →
      s'.roundTimer = s.roundTimer.tick delta ∧
      (s'.appState = AppState.AfterRound ↔
        (s.roundTimer.tick delta).justFinished = true) ∧
      (s'.appState = AppState.DuringRound ↔
        (s.roundTimer.tick delta).justFinished = false)) ∧
    (s.appState = AppState.AfterRound →
      (s'.appState = if k.left then AppState.DuringRound
        else if k.right then AppState.Menu else AppState.AfterRound) ∧
      s'.cubes = s.cubes ∧ (k.left = false → s'.score = s.score) ∧
      (k.left = false → k.right = false → s' = s)) := by
  have hinv := reachable_inv s hs
  refine ⟨⟨hinv.roundDuration, hinv.roundMode⟩, ?_, ?_⟩
  · intro hD
    rw [tick_duringRound s k delta d w h hD] at ht
    obtain ⟨tail, hmats⟩ :=
      spawn_cube_materials_mono s.spawnTimer s.materials s.nextId delta d w h
    have hcov1 : MatsCover
        (spawn_cube s.spawnTimer s.materials s.nextId delta d w h).materials
        (movement s.cubes delta) := by
      rw [hmats]
      exact matsCover_append _ _ _ (matsCover_movement _ _ _ hinv.cover)
    have hev : ∀ e ∈ (despawn_cube (movement s.cubes delta) delta).2.1,
        (findColor (spawn_cube s.spawnTimer s.materials s.nextId delta d w h).materials
          e.2).isSome = true := by
      intro e he
      rw [despawn_cube_eq] at he
      obtain ⟨c, hcmem, rfl⟩ := List.mem_map.mp he
      exact hcov1 c (List.mem_of_mem_filter hcmem)
    unfold tickDuringRound at ht
    dsimp only at ht
    rw [handle_key_input_eq _ _ k s.score hcov1, Option.some_bind] at ht
    dsimp only at ht
    rw [handle_missing_input_eq _ _ _ hev, Option.map_some'] at ht
    dsimp only at ht
    by_cases hj : (s.roundTimer.tick delta).justFinished = true
    · rw [if_pos hj] at ht
      have h1 := (congrArg Prod.fst (Option.some.inj ht)).symm
      subst h1
      refine ⟨rfl, ?_, ?_⟩
      · simp [hj, after_round_setup]
      · simp [hj, after_round_setup]
    · rw [if_neg hj] at ht
      have h1 := (congrArg Prod.fst (Option.some.inj ht)).symm
      subst h1
      refine ⟨rfl, ?_, ?_⟩
      · simp [hj]
      · simp [hj]
  · intro hA
    rw [tick_afterRound s k delta d w h hA] at ht
    have h1 := (congrArg Prod.fst (Option.some.inj ht)).symm
    subst h1
    unfold handle_after_round_key_input
    by_cases hl : k.left = true
    · rw [if_pos hl]
      refine ⟨by simp [hl, round_setup], rfl, ?_, ?_⟩
      · intro hlf
        rw [hl] at hlf
        cases hlf
      · intro hlf
        rw [hl] at hlf
        cases hlf
    · rw [if_neg hl]
      have hlf : k.left = false := by
        revert hl
        cases k.left <;> simp
      by_cases hr : k.right = true
      · rw [if_pos hr]
        refine ⟨by simp [hlf, hr], rfl, fun _ => rfl, ?_⟩
        intro _ hrf
        rw [hr] at hrf
        cases hrf
      · rw [if_neg hr]
        have hrf : k.right = false := by
          revert hr
          cases k.right <;> simp
        exact ⟨by simpa [hlf, hrf] using hA, rfl, fun _ => rfl, fun _ _ => rfl⟩

theorem c5_witness :
    startState.roundTimer.duration = 30000 ∧
    smallTickState.roundTimer = startState.roundTimer.tick 1000 ∧
    (smallTickState.appState = AppState.DuringRound ↔
      (startState.roundTimer.tick 1000).justFinished = false) := by
  have hc5 := c5_round_state_machine startState smallTickState keysNone 1000 draws0
    100 100 [] Reachable.start (by rfl)
  exact ⟨hc5.1.1, (hc5.2.1 (by rfl)).1, (hc5.2.1 (by rfl)).2.2⟩

/-! ## C6 -/

/-- C6 is false on the code: no system at all is registered for the Menu
state, so from the reachable Menu state no input whatsoever (no keys, no
delta, no draws) ever produces a DuringRound state — the round start trigger
does not exist. -/
theorem c6_counterexample :
    ¬ ∃ (k : Keys) (delta : ℤ) (d : Draws) (w h : ℤ) (p : GameState × List (ℕ × ℤ)),
      tick menuState k delta d w h = some p ∧
        p.1.appState = AppState.DuringRound := by
  rintro ⟨k, delta, d, w, h, p, hp, ha⟩
  have hm : menuState.appState = AppState.Menu := by rfl
  rw [tick_menu menuState k delta d w h hm] at hp
  have h1 : menuState = p.1 := congrArg Prod.fst (Option.some.inj hp)
  rw [← h1, hm] at ha
  cases ha

/-- C6 (amended): Menu is terminal — since no system runs in Menu, every tick
from a Menu state returns the state unchanged with no score mutations, so no
input transitions the machine out of Menu; the machine can only cycle
between DuringRound and AfterRound. -/
theorem c6_amended_menu_terminal (s : GameState) (k : Keys) (delta : ℤ)
    (d : Draws) (w h : ℤ) (hm : s.appState = AppState.Menu) :
    tick s k delta d w h = some (s, []) :=
  tick_menu s k delta d w h hm

theorem c6_amended_witness :
    tick menuState keysLeft 5 draws0 100 100 = some (menuState, []) :=
  c6_amended_menu_terminal menuState keysLeft 5 draws0 100 100 (by rfl)

/-! ## C7 -/

/-- C7: whenever the ticked spawn timer reports finished, `spawn_cube`
creates exactly one cube at the origin with a 1 s one-shot lifetime timer,
direction the drawn cardinal (the `gen_range(0..4)` draw indexes the four
unit vectors), color purple exactly when the `gen_bool(0.8)` draw is true,
scale 5 % of the longer screen dimension, speed equal to the
`gen_range(2·size..3·size)` draw (hence within [2·size, 3·size)), and it
re-randomizes the spawn interval to the `gen_range(1.0..1.5)` s draw (hence
within [1.0, 1.5) s); the initial spawn timer from `setup` is the 2 s
repeating timer. -/
theorem c7_spawner (st : Timer) (mats : List (ℕ × Color)) (nid : ℕ) (delta : ℤ)
    (d : Draws) (w h : ℤ)
    (hfin : (st.tick delta).finished = true)
    (hspeed : 2 * cubeSize w h ≤ d.speedDraw ∧ d.speedDraw < 3 * cubeSize w h)
    (hint : 1000 ≤ d.intervalDraw ∧ d.intervalDraw < 1500) :
    ∃ cube, (spawn_cube st mats nid delta d w h).pending = [cube] ∧
      cube.translation = Vec3.ZERO ∧
      cube.despawnTimer = Timer.new 1000 TimerMode.Once ∧
      cube.direction = cardinalDir d.dirIndex ∧
      cube.scale = Vec3.splat (cubeSize w h) ∧
      cube.speed = d.speedDraw ∧
      2 * cubeSize w h ≤ cube.speed ∧ cube.speed < 3 * cubeSize w h ∧
      (spawn_cube st mats nid delta d w h).materials =
        mats ++ [(nid, if d.colorPurple then Color.PURPLE else Color.MIDNIGHT_BLUE)] ∧
      (spawn_cube st mats nid delta d w h).timer =
        (st.tick delta).set_duration d.intervalDraw ∧
      1000 ≤ (spawn_cube st mats nid delta d w h).timer.duration ∧
      (spawn_cube st mats nid delta d w h).timer.duration < 1500 ∧
      initialState.spawnTimer = Timer.new 2000 TimerMode.Repeating := by
  unfold spawn_cube
  dsimp only
  rw [if_pos hfin]
  exact ⟨_, rfl, rfl, rfl, rfl, rfl, rfl, hspeed.1, hspeed.2, rfl, rfl, hint.1,
    hint.2, rfl⟩

theorem c7_witness :
    ∃ cube,
      (spawn_cube (Timer.new 2000 TimerMode.Repeating) [] 0 2000 draws0
        100 100).pending = [cube] ∧
      cube.translation = Vec3.ZERO ∧
      cube.despawnTimer = Timer.new 1000 TimerMode.Once ∧
      cube.direction = cardinalDir draws0.dirIndex ∧
      cube.scale = Vec3.splat (cubeSize 100 100) ∧
      cube.speed = draws0.speedDraw ∧
      2 * cubeSize 100 100 ≤ cube.speed ∧ cube.speed < 3 * cubeSize 100 100 ∧
      (spawn_cube (Timer.new 2000 TimerMode.Repeating) [] 0 2000 draws0
          100 100).materials =
        [] ++ [(0, if draws0.colorPurple then Color.PURPLE
          else Color.MIDNIGHT_BLUE)] ∧
      (spawn_cube (Timer.new 2000 TimerMode.Repeating) [] 0 2000 draws0
          100 100).timer =
        ((Timer.new 2000 TimerMode.Repeating).tick 2000).set_duration
          draws0.intervalDraw ∧
      1000 ≤ (spawn_cube (Timer.new 2000 TimerMode.Repeating) [] 0 2000 draws0
        100 100).timer.duration ∧
      (spawn_cube (Timer.new 2000 TimerMode.Repeating) [] 0 2000 draws0
        100 100).timer.duration < 1500 ∧
      initialState.spawnTimer = Timer.new 2000 TimerMode.Repeating :=
  c7_spawner (Timer.new 2000 TimerMode.Repeating) [] 0 2000 draws0 100 100
    (by decide) (by decide) (by decide)

/-! ## C8 -/

/-- C8's code bug, evaluated: the message index is drawn from
`gen_range(0..2)`, i.e. `Fin 2`, while every tier pool holds three
messages, so in each of the three tiers (checked at scores 0, 10 and 25)
only the first two pool entries can ever be chosen and the third is
unreachable — the choice is not uniform over the pool. -/
theorem c8_third_message_unreachable :
    MESSAGES.map List.length = [3, 3, 3] ∧
    (∀ i : Fin 2,
      (chooseMsg 0 i = (messagesFor 0).getD 0 "" ∨
        chooseMsg 0 i = (messagesFor 0).getD 1 "") ∧
      chooseMsg 0 i ≠ (MESSAGES.getD 0 []).getD 2 "" ∧
      chooseMsg 10 i ≠ (MESSAGES.getD 1 []).getD 2 "" ∧
      chooseMsg 25 i ≠ (MESSAGES.getD 2 []).getD 2 "") := by
  decide

/-! ## C9 -/

/-- C9: on every reachable state the whole tick succeeds — in particular the
`unwrap` of the color lookup performed by `handle_missing_input` for a
despawned cube's event never panics: every cube was spawned with its own
freshly added material, materials are only ever added, and the event carries
that cube's own handle id, so the lookup is always `some`. -/
theorem c9_missing_input_lookup_safe (s : GameState) (k : Keys) (delta : ℤ)
    (d : Draws) (w h : ℤ) (hs : Reachable s) :
    (tick s k delta d w h).isSome = true ∧
    (∀ score : ℤ, (handle_missing_input s.materials
      (despawn_cube (movement s.cubes delta) delta).2.1 score).isSome = true) := by
  have hinv := reachable_inv s hs
  constructor
  · obtain ⟨s', log, hts, _⟩ := tick_some_inv s k delta d w h hinv
    rw [hts]
    rfl
  · intro score
    have hev : ∀ e ∈ (despawn_cube (movement s.cubes delta) delta).2.1,
        (findColor s.materials e.2).isSome = true := by
      intro e he
      rw [despawn_cube_eq] at he
      obtain ⟨c, hcmem, rfl⟩ := List.mem_map.mp he
      exact matsCover_movement _ _ _ hinv.cover c (List.mem_of_mem_filter hcmem)
    rw [handle_missing_input_eq _ _ _ hev]
    rfl

theorem c9_witness :
    (tick afterState keysLeft 0 draws0 100 100).isSome = true ∧
    (∀ score : ℤ, (handle_missing_input afterState.materials
      (despawn_cube (movement afterState.cubes 0) 0).2.1 score).isSome = true) :=
  c9_missing_input_lookup_safe afterState keysLeft 0 draws0 100 100
    reachable_afterState

/-! ## C10 -/

/-- C10: entering DuringRound (`round_setup`) mutates only the score (reset
to 0), the text store (spawning the scoreboard) and the round timer (reset
only when finished); cubes, materials, next id, app state — and in
particular the spawn timer with its elapsed time and last randomized
duration — are untouched, and any tick taken from an AfterRound state
(including the restarting one) leaves the spawn timer exactly as it was, so
a later round starts from the carried-over interval state, not from the
initial 2 s one. -/
theorem c10_enter_round_frame_effect (s : GameState) (k : Keys) (delta : ℤ)
    (d : Draws) (w h : ℤ) (hA : s.appState = AppState.AfterRound) :
    (round_setup s).spawnTimer = s.spawnTimer ∧
    (round_setup s).score = 0 ∧
    (round_setup s).roundTimer =
      (if s.roundTimer.finished then s.roundTimer.reset else s.roundTimer) ∧
    (round_setup s).cubes = s.cubes ∧
    (round_setup s).materials = s.materials ∧
    (round_setup s).nextId = s.nextId ∧
    (round_setup s).appState = s.appState ∧
    (round_setup s).texts = s.texts ++ [{ scoreboard := true, value := "Score:" }] ∧
    (tick s k delta d w h).map (fun p => p.1.spawnTimer) = some s.spawnTimer := by
  refine ⟨rfl, rfl, rfl, rfl, rfl, rfl, rfl, rfl, ?_⟩
  rw [tick_afterRound s k delta d w h hA, Option.map_some']
  unfold handle_after_round_key_input
  by_cases hl : k.left = true
  · rw [if_pos hl]
    rfl
  · rw [if_neg hl]
    by_cases hr : k.right = true
    · rw [if_pos hr]
    · rw [if_neg hr]

theorem c10_witness :
    (round_setup afterState).spawnTimer = afterState.spawnTimer ∧
    (round_setup afterState).score = 0 ∧
    (round_setup afterState).roundTimer =
      (if afterState.roundTimer.finished then afterState.roundTimer.reset
        else afterState.roundTimer) ∧
    (round_setup afterState).cubes = afterState.cubes ∧
    (round_setup afterState).materials = afterState.materials ∧
    (round_setup afterState).nextId = afterState.nextId ∧
    (round_setup afterState).appState = afterState.appState ∧
    (round_setup afterState).texts =
      afterState.texts ++ [{ scoreboard := true, value := "Score:" }] ∧
    (tick afterState keysLeft 0 draws0 100 100).map (fun p => p.1.spawnTimer) =
      some afterState.spawnTimer :=
  c10_enter_round_frame_effect afterState keysLeft 0 draws0 100 100 (by rfl)

end PurpleCubes
